import Mathlib

/-!
# Verification of the image-database fingerprint and grouping engine

Shallow embedding of the content/perceptual fingerprint engine of the
`image_database` repository (`src/model/image_util.py`,
`src/model/database.py`) together with proofs of the spec's claims.

External libraries (PIL decoding / Lanczos resampling, `hashlib.sha256`,
`mimetypes.guess_type`, `os.stat`) are not code of this repository; they
are modelled as abstract data fed into the embedded functions: an image
input is represented by the canonical pixel grids its two decode passes
produce (`none` when decoding raises), a file by its stat/extension-lookup
outcome and its bytes.
-/

namespace ImageDB

/-! ## Hamming comparator (`image_util.calculate_hamming_distance`)

The Python function returns `float('inf')` on a length mismatch and an
integer count of position-by-position character mismatches otherwise; we
model the result type as `WithTop ℕ`, with `⊤` standing for the infinite
sentinel. -/

/-- Loop of `calculate_hamming_distance`: count positions where the two
character lists differ (called on equal-length lists). -/
def hammingCount : List Char → List Char → Nat
  | c1 :: r1, c2 :: r2 => (if c1 ≠ c2 then 1 else 0) + hammingCount r1 r2
  | _, _ => 0

/-- `calculate_hamming_distance(hash1, hash2)`: `float('inf')` (here `⊤`)
when the lengths differ, otherwise the number of differing character
positions. -/
def calculate_hamming_distance (hash1 hash2 : String) : WithTop Nat :=
  if hash1.length ≠ hash2.length then ⊤
  else (hammingCount hash1.data hash2.data : Nat)

theorem hammingCount_comm : ∀ a b : List Char, hammingCount a b = hammingCount b a
  | c1 :: r1, c2 :: r2 => by
      simp only [hammingCount, hammingCount_comm r1 r2, ne_comm]
  | [], [] => rfl
  | [], _ :: _ => rfl
  | _ :: _, [] => rfl

theorem hammingCount_self : ∀ a : List Char, hammingCount a a = 0
  | [] => rfl
  | c :: r => by simp [hammingCount, hammingCount_self r]

theorem hammingCount_le_length : ∀ a b : List Char, hammingCount a b ≤ a.length
  | c1 :: r1, c2 :: r2 => by
      simp only [hammingCount, List.length_cons]
      have h := hammingCount_le_length r1 r2
      split <;> omega
  | [], _ => Nat.le_refl 0
  | _ :: _, [] => Nat.zero_le _

/-! ## Perceptual hasher (`image_util.calculate_image_perceptual_hash`)

The part after PIL decoding and 8×8 grayscale canonicalization is pure
arithmetic on the 64-entry pixel list and is embedded exactly.  Python's
`sum(pixels) / len(pixels)` is float division; for 64 pixels in `0..255`
it is exact (the divisor is a power of two and the sum fits a float), so
the mean is modelled as the exact rational. -/

/-- The hex digit character for `n < 16`, lowercase (as produced by
Python's `x` format code). -/
def hexChar (n : Nat) : Char :=
  if n < 10 then Char.ofNat (48 + n) else Char.ofNat (87 + n)

/-- Python `f"{n:016x}"` for `n < 16^16`: sixteen zero-padded lowercase
hex digits, most significant first. -/
def toHex16 (n : Nat) : String :=
  ⟨(List.range 16).map fun i => hexChar (n / 16 ^ (15 - i) % 16)⟩

/-- Python `int(s, 2)` on a nonempty string of `'0'`/`'1'` characters. -/
def intOfBinaryChars (s : List Char) : Nat :=
  s.foldl (fun acc c => 2 * acc + (if c = '1' then 1 else 0)) 0

/-- `calculate_image_perceptual_hash` after canonicalization: mean of the
pixel intensities, bit `'1'` for a pixel strictly above the mean, bits
joined in scan order, converted with `int(_, 2)` and formatted `016x`. -/
def perceptualHashCore (pixels : List Nat) : String :=
  toHex16 (intOfBinaryChars (pixels.map fun p : Nat =>
    if (p : ℚ) > (pixels.sum : ℚ) / (pixels.length : ℚ) then '1' else '0'))

/-- Spec-side description of the perceptual hash (§4.4), for comparison
with `perceptualHashCore`: arithmetic mean of the 64 intensities, bit 1
iff the pixel strictly exceeds the mean, the bit of scan position `i`
packed most-significant-bit first (weight `2 ^ (63 - i)`), the packed
64-bit integer formatted as 16 zero-padded lowercase hex characters. -/
def specPerceptualHash (pixels : List Nat) : String :=
  toHex16 (∑ i ∈ Finset.range 64,
    (if ((pixels.getD i 0 : Nat) : ℚ) > (pixels.sum : ℚ) / (pixels.length : ℚ)
      then 1 else 0) * 2 ^ (63 - i))

theorem intOfBinaryChars_foldl (bs : List Char) :
    ∀ a : Nat,
      bs.foldl (fun acc c => 2 * acc + (if c = '1' then 1 else 0)) a =
        a * 2 ^ bs.length +
          ∑ i ∈ Finset.range bs.length,
            (if bs.getD i '0' = '1' then 1 else 0) * 2 ^ (bs.length - 1 - i) := by
  induction bs with
  | nil => intro a; simp
  | cons c rest ih =>
      intro a
      rw [List.foldl_cons, ih]
      simp only [List.length_cons]
      rw [Finset.sum_range_succ']
      simp only [List.getD_cons_succ, List.getD_cons_zero, Nat.add_sub_cancel,
        Nat.sub_zero]
      have hexp : ∀ i ∈ Finset.range rest.length,
          (if rest.getD i '0' = '1' then 1 else 0) * 2 ^ (rest.length - (i + 1)) =
          (if rest.getD i '0' = '1' then 1 else 0) * 2 ^ (rest.length - 1 - i) := by
        intro i _
        congr 2
        omega
      rw [Finset.sum_congr rfl hexp]
      ring

theorem perceptualHashCore_eq_spec (pixels : List Nat) (hlen : pixels.length = 64) :
    perceptualHashCore pixels = specPerceptualHash pixels := by
  unfold perceptualHashCore specPerceptualHash
  refine congrArg toHex16 ?_
  rw [intOfBinaryChars, intOfBinaryChars_foldl, List.length_map, hlen]
  simp only [zero_mul, zero_add]
  refine Finset.sum_congr rfl ?_
  intro i hi
  rw [Finset.mem_range] at hi
  have hip : i < pixels.length := by omega
  rw [List.getD_eq_getElem _ _ (by simpa using hip), List.getElem_map,
    List.getD_eq_getElem _ _ hip]
  by_cases hgt : (pixels[i] : ℚ) > (pixels.sum : ℚ) / (pixels.length : ℚ)
  · simp [hgt]
  · simp [hgt]

set_option maxRecDepth 8000 in
theorem perceptualHashCore_replicate (v : Nat) :
    perceptualHashCore (List.replicate 64 v) = "0000000000000000" := by
  have havg : (((List.replicate 64 v).sum : Nat) : ℚ) /
      (((List.replicate 64 v).length : Nat) : ℚ) = (v : ℚ) := by
    rw [List.sum_const_nat, List.length_replicate]
    push_cast
    rw [mul_comm]
    exact mul_div_cancel_right₀ _ (by norm_num)
  unfold perceptualHashCore
  rw [havg, List.map_replicate, if_neg (gt_irrefl (v : ℚ))]
  decide

/-! ## Image inputs and the combined entry point
(`image_util.calculate_image_hashes`)

The PIL pipeline (decode + Lanczos canonicalization) is external to the
repository; an image input is modelled by the canonical pixel grids the
two decode passes yield.  The two fields can differ — most directly, a
`BytesIO` input is consumed by the first `Image.open`, so the content-hash
pass can succeed while the perceptual-hash pass fails — and each is `none`
when its pass raises (file missing, broken stream, corrupt bytes,
unsupported input type). -/

structure ImageInput where
  /-- Canonical 64×64 RGB grid produced inside `calculate_image_hash`,
  `none` when its decode/canonicalize step raises. -/
  gridRGB64 : Option (List (Nat × Nat × Nat))
  /-- Canonical 8×8 grayscale grid produced inside
  `calculate_image_perceptual_hash`, `none` when its decode raises. -/
  gridGray8 : Option (List Nat)

/-- External byte-level steps of `calculate_image_hash`: deterministic
PNG serialization of the canonical grid followed by
`hashlib.sha256(...).hexdigest()`. Both live outside the repository and
are modelled as an abstract function to the 64-hex digest string. -/
structure HashEnv where
  pngSha256 : List (Nat × Nat × Nat) → String

/-- `calculate_image_hash`: canonicalize to 64×64 RGB, serialize as PNG,
SHA-256 hex digest; `None` when any step raises. -/
def calculate_image_hash (env : HashEnv) (inp : ImageInput) : Option String :=
  inp.gridRGB64.map env.pngSha256

/-- `calculate_image_perceptual_hash`: canonicalize to 8×8 grayscale and
apply the mean-threshold hash; `None` when decoding raises. -/
def calculate_image_perceptual_hash (inp : ImageInput) : Option String :=
  inp.gridGray8.map perceptualHashCore

/-- The dict returned by `calculate_image_hashes`. -/
structure HashResult where
  image_hash : Option String
  perceptual_hash : Option String
  success : Bool
  deriving DecidableEq

/-- `calculate_image_hashes`: run both sub-computations and report
`success` exactly when both returned a value. -/
def calculate_image_hashes (env : HashEnv) (inp : ImageInput) : HashResult :=
  let image_hash := calculate_image_hash env inp
  let perceptual_hash := calculate_image_perceptual_hash inp
  { image_hash := image_hash
    perceptual_hash := perceptual_hash
    success := image_hash.isSome && perceptual_hash.isSome }

/-! ## Grouping functions (`database.find_duplicate_images`,
`database.find_similar_images`)

The two functions read all `Images_metadata` rows from the session and
work only with each row's `image_hash` / `perceptual_hash` columns (both
nullable) plus the row's identity; a row is embedded as that data, and
the session query as the list of rows it returns. -/

/-- An `images_metadata` row as the grouping functions consume it. -/
structure Images_metadata where
  id : Nat
  image_hash : Option String
  perceptual_hash : Option String
  deriving DecidableEq

/-- Python truthiness of `meta.perceptual_hash` as used in
`if not meta.perceptual_hash: continue` — `None` and `""` are falsy. -/
def Images_metadata.hasPerceptualHash (m : Images_metadata) : Bool :=
  match m.perceptual_hash with
  | none => false
  | some s => s != ""

/-- The string actually passed to `calculate_hamming_distance` once the
truthiness check has passed. -/
def Images_metadata.phString (m : Images_metadata) : String :=
  m.perceptual_hash.getD ""

/-- One entry of the list returned by `find_duplicate_images`. -/
structure DupGroup where
  image_hash : Option String
  count : Nat
  images : List Images_metadata
  deriving DecidableEq

/-- One entry of the list returned by `find_similar_images`. -/
structure SimGroup where
  threshold : Nat
  count : Nat
  images : List Images_metadata
  deriving DecidableEq

/-- One iteration of the first loop of `find_duplicate_images`:
`hash_groups[meta.image_hash].append(meta)` when the key is present,
`hash_groups[meta.image_hash] = [meta]` otherwise.  A Python dict
preserves insertion order, so it is embedded as an association list with
new keys appended at the end. -/
def insertGroup : List (Option String × List Images_metadata) → Option String →
    Images_metadata → List (Option String × List Images_metadata)
  | [], k, m => [(k, [m])]
  | (k', ms) :: rest, k, m =>
      if k' = k then (k', ms ++ [m]) :: rest else (k', ms) :: insertGroup rest k m

/-- The `hash_groups` dict after the first loop of
`find_duplicate_images`. -/
def hash_groups (metadata_list : List Images_metadata) :
    List (Option String × List Images_metadata) :=
  metadata_list.foldl (fun gs meta => insertGroup gs meta.image_hash meta) []

/-- `find_duplicate_images`: bucket the rows by `image_hash` (the key is
the column value as stored, `None` included) and report each bucket with
more than one row. -/
def find_duplicate_images (metadata_list : List Images_metadata) : List DupGroup :=
  ((hash_groups metadata_list).filter fun g => 1 < g.2.length).map fun g =>
    { image_hash := g.1, count := g.2.length, images := g.2 }

/-- `find_similar_images`: for each row (in query order) whose
`perceptual_hash` is truthy, collect every later truthy row within
`threshold` Hamming distance; report the cluster when anyone joined.
The source's default `threshold` is 5. -/
def find_similar_images : List Images_metadata → Nat → List SimGroup
  | [], _ => []
  | meta1 :: rest, threshold =>
      if meta1.hasPerceptualHash then
        let similar_images := meta1 :: rest.filter fun meta2 =>
          meta2.hasPerceptualHash &&
            decide (calculate_hamming_distance meta1.phString meta2.phString ≤
              (threshold : WithTop Nat))
        if 1 < similar_images.length then
          { threshold := threshold, count := similar_images.length,
            images := similar_images } :: find_similar_images rest threshold
        else find_similar_images rest threshold
      else find_similar_images rest threshold

/-- Spec-side description of the similarity clusterer (§4.7), for
comparison with `find_similar_images`: iterate anchor indices in input
order; for anchor `i` collect exactly the later indices `j > i` whose
distance to `i` is at most the threshold; emit the group — anchor first,
members in input order — iff it has at least one member besides the
anchor; matched members are not marked visited. -/
def specSimilarGroups (metadata_list : List Images_metadata) (threshold : Nat) :
    List SimGroup :=
  (List.range metadata_list.length).filterMap fun i =>
    let anchor := metadata_list.getD i ⟨0, none, none⟩
    let members := anchor :: (metadata_list.drop (i + 1)).filter fun m =>
      decide (calculate_hamming_distance anchor.phString m.phString ≤
        (threshold : WithTop Nat))
    if 1 < members.length then
      some { threshold := threshold, count := members.length, images := members }
    else none

/-! ### Characterization of `hash_groups`

A Python dict filled by insertion holds its keys in first-occurrence
order; `hash_groups` is proved equal to the canonical association list
with one entry per distinct `image_hash` (first-seen order) carrying the
rows with that hash in input order. -/

/-- The distinct values of a list in first-occurrence order (the key
order of a Python dict filled by insertion). -/
def firstKeys {α : Type} [DecidableEq α] (l : List α) : List α :=
  l.foldl (fun acc k => if k ∈ acc then acc else acc ++ [k]) []

theorem firstKeys_concat {α : Type} [DecidableEq α] (l : List α) (a : α) :
    firstKeys (l ++ [a]) =
      if a ∈ firstKeys l then firstKeys l else firstKeys l ++ [a] := by
  unfold firstKeys
  rw [List.foldl_concat]

theorem mem_firstKeys {α : Type} [DecidableEq α] (l : List α) :
    ∀ a, a ∈ firstKeys l ↔ a ∈ l := by
  induction l using List.reverseRecOn with
  | nil => intro a; simp [firstKeys]
  | append_singleton l b ih =>
      intro a
      rw [firstKeys_concat]
      by_cases hb : b ∈ firstKeys l
      · rw [if_pos hb, ih, List.mem_append, List.mem_singleton]
        constructor
        · exact Or.inl
        · rintro (h | rfl)
          · exact h
          · exact (ih a).mp hb
      · rw [if_neg hb, List.mem_append, List.mem_append, ih]

theorem firstKeys_nodup {α : Type} [DecidableEq α] (l : List α) :
    (firstKeys l).Nodup := by
  induction l using List.reverseRecOn with
  | nil => simp [firstKeys]
  | append_singleton l b ih =>
      rw [firstKeys_concat]
      by_cases hb : b ∈ firstKeys l
      · rwa [if_pos hb]
      · rw [if_neg hb]
        exact List.Nodup.append ih (List.nodup_singleton b)
          (fun a ha hb' => hb (List.mem_singleton.mp hb' ▸ ha))

/-- The canonical form of `hash_groups`. -/
def canonGroups (metas : List Images_metadata) :
    List (Option String × List Images_metadata) :=
  (firstKeys (metas.map Images_metadata.image_hash)).map fun h =>
    (h, metas.filter fun m => decide (m.image_hash = h))

theorem insertGroup_not_mem (gs : List (Option String × List Images_metadata))
    (k : Option String) (m : Images_metadata) (h : k ∉ gs.map Prod.fst) :
    insertGroup gs k m = gs ++ [(k, [m])] := by
  induction gs with
  | nil => rfl
  | cons p rest ih =>
      obtain ⟨k', ms⟩ := p
      simp only [List.map_cons, List.mem_cons] at h
      push_neg at h
      rw [insertGroup, if_neg (fun hk => h.1 hk.symm), ih h.2, List.cons_append]

theorem insertGroup_map_mem (keys : List (Option String))
    (f : Option String → List Images_metadata) (k : Option String)
    (m : Images_metadata) (hnd : keys.Nodup) (hk : k ∈ keys) :
    insertGroup (keys.map fun h => (h, f h)) k m =
      keys.map fun h => (h, if h = k then f h ++ [m] else f h) := by
  induction keys with
  | nil => cases hk
  | cons h0 rest ih =>
      rw [List.map_cons, List.map_cons, insertGroup]
      by_cases h0k : h0 = k
      · rw [if_pos h0k, if_pos h0k]
        have hknr : ∀ h ∈ rest, ¬(h = k) := by
          intro h hh hhk
          exact (List.nodup_cons.mp hnd).1 (h0k ▸ hhk ▸ hh)
        congr 1
        apply List.map_congr_left
        intro h hh
        rw [if_neg (hknr h hh)]
      · rw [if_neg h0k, if_neg h0k]
        have hkr : k ∈ rest := by
          rcases List.mem_cons.mp hk with h | h
          · exact absurd h.symm h0k
          · exact h
        rw [ih (List.nodup_cons.mp hnd).2 hkr]

theorem canonGroups_concat (metas : List Images_metadata) (meta : Images_metadata) :
    insertGroup (canonGroups metas) meta.image_hash meta =
      canonGroups (metas ++ [meta]) := by
  unfold canonGroups
  rw [List.map_append, List.map_singleton, firstKeys_concat]
  by_cases hk : meta.image_hash ∈ firstKeys (metas.map Images_metadata.image_hash)
  · rw [if_pos hk, insertGroup_map_mem _ _ _ _ (firstKeys_nodup _) hk]
    apply List.map_congr_left
    intro h _
    rw [List.filter_append]
    congr 1
    by_cases hh : h = meta.image_hash
    · subst hh
      simp [List.filter_singleton]
    · have hne : ¬(meta.image_hash = h) := fun he => hh he.symm
      rw [if_neg hh]
      simp [List.filter_singleton, hne]
  · have hnotin : meta.image_hash ∉
        (((firstKeys (metas.map Images_metadata.image_hash)).map fun h =>
          (h, metas.filter fun m => decide (m.image_hash = h))).map Prod.fst) := by
      simpa using hk
    rw [if_neg hk, insertGroup_not_mem _ _ _ hnotin, List.map_append]
    congr 1
    · apply List.map_congr_left
      intro h hh
      have hne : ¬(meta.image_hash = h) := fun he => hk (he ▸ hh)
      rw [List.filter_append]
      simp [List.filter_singleton, hne]
    · rw [List.map_singleton]
      have hnil : metas.filter (fun m => decide (m.image_hash = meta.image_hash)) = [] := by
        rw [List.filter_eq_nil_iff]
        intro m hm hdm
        apply hk
        rw [mem_firstKeys]
        have hmeq : m.image_hash = meta.image_hash := of_decide_eq_true hdm
        exact hmeq ▸ List.mem_map_of_mem Images_metadata.image_hash hm
      rw [List.filter_append, hnil, List.nil_append]
      simp [List.filter_singleton]

theorem hash_groups_eq_canon (metas : List Images_metadata) :
    hash_groups metas = canonGroups metas := by
  induction metas using List.reverseRecOn with
  | nil => rfl
  | append_singleton l m ih =>
      unfold hash_groups
      rw [List.foldl_concat]
      unfold hash_groups at ih
      rw [ih, canonGroups_concat]

theorem mem_find_duplicate (metas : List Images_metadata) (g : DupGroup)
    (hg : g ∈ find_duplicate_images metas) :
    g.images = metas.filter (fun m => decide (m.image_hash = g.image_hash)) ∧
    g.count = g.images.length ∧ 1 < g.images.length := by
  rw [find_duplicate_images, hash_groups_eq_canon] at hg
  obtain ⟨q, hq, rfl⟩ := List.mem_map.mp hg
  obtain ⟨hqc, hqp⟩ := List.mem_filter.mp hq
  obtain ⟨h, _, rfl⟩ := List.mem_map.mp hqc
  refine ⟨rfl, rfl, ?_⟩
  exact of_decide_eq_true hqp

theorem find_duplicate_keys_nodup (metas : List Images_metadata) :
    ((find_duplicate_images metas).map DupGroup.image_hash).Nodup := by
  rw [find_duplicate_images, hash_groups_eq_canon, List.map_map]
  have heq : (DupGroup.image_hash ∘ fun g : Option String × List Images_metadata =>
      ({ image_hash := g.1, count := g.2.length, images := g.2 } : DupGroup)) =
      Prod.fst := rfl
  rw [heq]
  have hnd : ((canonGroups metas).map Prod.fst).Nodup := by
    unfold canonGroups
    rw [List.map_map]
    have heq2 : (Prod.fst ∘ fun h : Option String =>
        (h, metas.filter fun m => decide (m.image_hash = h))) =
        fun h : Option String => h := rfl
    rw [heq2, List.map_id']
    exact firstKeys_nodup _
  exact hnd.sublist ((List.filter_sublist _).map _)

theorem find_duplicate_complete (metas : List Images_metadata) (h : Option String)
    (hcount : 1 < (metas.filter fun m => decide (m.image_hash = h)).length) :
    ∃ g ∈ find_duplicate_images metas, g.image_hash = h := by
  have hne : (metas.filter fun m => decide (m.image_hash = h)) ≠ [] := by
    intro hnil
    rw [hnil] at hcount
    simp at hcount
  obtain ⟨m, hm⟩ := List.exists_mem_of_ne_nil _ hne
  have hmm := List.mem_filter.mp hm
  have hmh : m.image_hash = h := of_decide_eq_true hmm.2
  have hkey : h ∈ firstKeys (metas.map Images_metadata.image_hash) := by
    rw [mem_firstKeys]
    exact hmh ▸ List.mem_map_of_mem Images_metadata.image_hash hmm.1
  refine ⟨{ image_hash := h,
            count := (metas.filter fun m => decide (m.image_hash = h)).length,
            images := metas.filter fun m => decide (m.image_hash = h) }, ?_, rfl⟩
  rw [find_duplicate_images, hash_groups_eq_canon]
  apply List.mem_map.mpr
  refine ⟨(h, metas.filter fun m => decide (m.image_hash = h)), ?_, rfl⟩
  apply List.mem_filter.mpr
  refine ⟨?_, decide_eq_true hcount⟩
  unfold canonGroups
  exact List.mem_map_of_mem _ hkey

/-! ### Characterization of `find_similar_images` -/

theorem specSimilarGroups_cons (m1 : Images_metadata) (rest : List Images_metadata)
    (thr : Nat) :
    specSimilarGroups (m1 :: rest) thr =
      (if 1 < (m1 :: rest.filter fun m =>
            decide (calculate_hamming_distance m1.phString m.phString ≤
              (thr : WithTop Nat))).length then
        ({ threshold := thr,
           count := (m1 :: rest.filter fun m =>
             decide (calculate_hamming_distance m1.phString m.phString ≤
               (thr : WithTop Nat))).length,
           images := m1 :: rest.filter fun m =>
             decide (calculate_hamming_distance m1.phString m.phString ≤
               (thr : WithTop Nat)) } : SimGroup) :: specSimilarGroups rest thr
      else specSimilarGroups rest thr) := by
  unfold specSimilarGroups
  rw [List.length_cons, List.range_succ_eq_map, List.filterMap_cons, List.filterMap_map]
  simp only [List.getD_cons_zero, List.getD_cons_succ, List.drop_succ_cons,
    List.drop_zero, Function.comp_def]
  by_cases hc : 1 < (m1 :: rest.filter fun m =>
      decide (calculate_hamming_distance m1.phString m.phString ≤
        (thr : WithTop Nat))).length
  · rw [if_pos hc, if_pos hc]
  · rw [if_neg hc, if_neg hc]

theorem find_similar_eq_spec :
    ∀ (metas : List Images_metadata), ∀ (threshold : Nat),
      (∀ m ∈ metas, m.hasPerceptualHash = true) →
      find_similar_images metas threshold = specSimilarGroups metas threshold := by
  intro metas
  induction metas with
  | nil => intro thr _; rfl
  | cons meta1 rest ih =>
      intro thr h
      have h1 : meta1.hasPerceptualHash = true := h meta1 (List.mem_cons_self _ _)
      have hrest : ∀ m ∈ rest, m.hasPerceptualHash = true :=
        fun m hm => h m (List.mem_cons_of_mem _ hm)
      have hfilter : (rest.filter fun meta2 =>
            meta2.hasPerceptualHash &&
              decide (calculate_hamming_distance meta1.phString meta2.phString ≤
                (thr : WithTop Nat))) =
          rest.filter fun meta2 =>
            decide (calculate_hamming_distance meta1.phString meta2.phString ≤
              (thr : WithTop Nat)) := by
        apply List.filter_congr
        intro m hm
        simp [hrest m hm]
      rw [specSimilarGroups_cons, ← ih thr hrest, ← hfilter]
      simp only [find_similar_images, if_pos h1]

theorem find_similar_members_truthy :
    ∀ (metas : List Images_metadata) (threshold : Nat) (g : SimGroup)
      (m : Images_metadata), g ∈ find_similar_images metas threshold →
      m ∈ g.images → m.hasPerceptualHash = true := by
  intro metas
  induction metas with
  | nil => intro thr g m hg _; simp [find_similar_images] at hg
  | cons meta1 rest ih =>
      intro thr g m hg hm
      rw [find_similar_images] at hg
      by_cases h1 : meta1.hasPerceptualHash
      · rw [if_pos h1] at hg
        dsimp only at hg
        split at hg
        · rcases List.mem_cons.mp hg with hgnew | hgrec
          · subst hgnew
            rcases List.mem_cons.mp hm with hm1 | hmf
            · subst hm1; exact h1
            · have := List.of_mem_filter hmf
              exact (Bool.and_elim_left this)
          · exact ih thr g m hgrec hm
        · exact ih thr g m hg hm
      · rw [if_neg h1] at hg
        exact ih thr g m hg hm

/-! ## File info (`image_util.get_file_info`,
`image_util.detect_mime_type_by_content`)

`os.stat` and `mimetypes.guess_type` are external library calls; a file
is embedded as the data they would report (whether `stat` succeeds, the
size, the extension-table lookup result) together with the file's bytes,
which `detect_mime_type_by_content` reads.  Bytes are naturals below
256; `startswith` is `List.isPrefixOf`, and `b'WEBP' in header[:12]` is
a sliding-window scan. -/

/-- Python `b'WEBP' in l` (bytes containment). -/
def containsWEBP : List Nat → Bool
  | [] => false
  | a :: rest => [0x57, 0x45, 0x42, 0x50].isPrefixOf (a :: rest) || containsWEBP rest

/-- `detect_mime_type_by_content`: sniff the first 32 bytes against the
fixed magic-byte table, falling through to `application/octet-stream`. -/
def detect_mime_type_by_content (content : List Nat) : Option String :=
  if [0xff, 0xd8, 0xff].isPrefixOf (content.take 32) then some "image/jpeg"
  else if [0x89, 0x50, 0x4e, 0x47, 0x0d, 0x0a, 0x1a, 0x0a].isPrefixOf (content.take 32) then
    some "image/png"
  else if [0x47, 0x49, 0x46, 0x38, 0x37, 0x61].isPrefixOf (content.take 32) ||
      [0x47, 0x49, 0x46, 0x38, 0x39, 0x61].isPrefixOf (content.take 32) then
    some "image/gif"
  else if [0x52, 0x49, 0x46, 0x46].isPrefixOf (content.take 32) &&
      containsWEBP ((content.take 32).take 12) then
    some "image/webp"
  else if [0x42, 0x4d].isPrefixOf (content.take 32) then some "image/bmp"
  else if [0x00, 0x00, 0x01, 0x00].isPrefixOf (content.take 32) then some "image/x-icon"
  else some "application/octet-stream"

/-- A file as `get_file_info` observes it through the external calls. -/
structure FileData where
  /-- Whether `os.stat(file_path)` succeeds. -/
  statOk : Bool
  /-- `stat.st_size` when it does. -/
  st_size : Nat
  /-- `mimetypes.guess_type(file_path)[0]` — extension-table lookup,
  `none` when the extension is not recognized. -/
  extMime : Option String
  /-- The file's bytes. -/
  content : List Nat

/-- The dict returned by `get_file_info`. -/
structure FileInfo where
  file_size : Option Nat
  mime_type : Option String
  deriving DecidableEq

/-- `get_file_info`: stat the file, resolve the mime type by extension
first and by content sniffing when the extension yields nothing; on a
stat failure report both fields as `None`. -/
def get_file_info (f : FileData) : FileInfo :=
  if f.statOk then
    { file_size := some f.st_size
      mime_type := match f.extMime with
        | some m => some m
        | none => detect_mime_type_by_content f.content }
  else { file_size := none, mime_type := none }

theorem isPrefixOf_take32 (p bs : List Nat) (h : p.length ≤ 32) :
    p.isPrefixOf (bs.take 32) = p.isPrefixOf bs := by
  by_cases hp : p <+: bs
  · rw [List.isPrefixOf_iff_prefix.mpr hp,
      List.isPrefixOf_iff_prefix.mpr (List.prefix_take_iff.mpr ⟨hp, h⟩)]
  · have h2 : ¬(p <+: bs.take 32) := fun hc => hp (List.prefix_take_iff.mp hc).1
    rw [Bool.eq_iff_iff]
    constructor
    · intro hc; exact absurd (List.isPrefixOf_iff_prefix.mp hc) h2
    · intro hc; exact absurd (List.isPrefixOf_iff_prefix.mp hc) hp

theorem get_file_info_ext (f : FileData) (m : String) (hs : f.statOk = true)
    (he : f.extMime = some m) : (get_file_info f).mime_type = some m := by
  rw [get_file_info, if_pos hs]
  simp [he]

theorem get_file_info_fallback (f : FileData) (hs : f.statOk = true)
    (he : f.extMime = none) :
    (get_file_info f).mime_type = detect_mime_type_by_content f.content := by
  rw [get_file_info, if_pos hs]
  simp [he]

theorem detect_jpeg (bs : List Nat) (h : [0xff, 0xd8, 0xff].isPrefixOf bs = true) :
    detect_mime_type_by_content bs = some "image/jpeg" := by
  obtain ⟨t, rfl⟩ := List.isPrefixOf_iff_prefix.mp h
  rw [detect_mime_type_by_content, isPrefixOf_take32 _ _ (by decide)]
  simp [List.isPrefixOf]

theorem detect_png (bs : List Nat)
    (h : [0x89, 0x50, 0x4e, 0x47, 0x0d, 0x0a, 0x1a, 0x0a].isPrefixOf bs = true) :
    detect_mime_type_by_content bs = some "image/png" := by
  obtain ⟨t, rfl⟩ := List.isPrefixOf_iff_prefix.mp h
  rw [detect_mime_type_by_content, isPrefixOf_take32 _ _ (by decide),
    isPrefixOf_take32 _ _ (by decide)]
  simp [List.isPrefixOf]

theorem detect_gif (bs : List Nat)
    (h : ([0x47, 0x49, 0x46, 0x38, 0x37, 0x61].isPrefixOf bs ||
      [0x47, 0x49, 0x46, 0x38, 0x39, 0x61].isPrefixOf bs) = true) :
    detect_mime_type_by_content bs = some "image/gif" := by
  rcases Bool.or_eq_true_iff.mp h with h87 | h89
  · obtain ⟨t, rfl⟩ := List.isPrefixOf_iff_prefix.mp h87
    rw [detect_mime_type_by_content, isPrefixOf_take32 _ _ (by decide),
      isPrefixOf_take32 _ _ (by decide), isPrefixOf_take32 _ _ (by decide)]
    simp [List.isPrefixOf]
  · obtain ⟨t, rfl⟩ := List.isPrefixOf_iff_prefix.mp h89
    rw [detect_mime_type_by_content, isPrefixOf_take32 _ _ (by decide),
      isPrefixOf_take32 _ _ (by decide), isPrefixOf_take32 _ _ (by decide),
      isPrefixOf_take32 _ _ (by decide)]
    simp [List.isPrefixOf]

theorem detect_webp (bs : List Nat)
    (h : [0x52, 0x49, 0x46, 0x46].isPrefixOf bs = true)
    (hw : containsWEBP (bs.take 12) = true) :
    detect_mime_type_by_content bs = some "image/webp" := by
  obtain ⟨t, rfl⟩ := List.isPrefixOf_iff_prefix.mp h
  have htt : ((([0x52, 0x49, 0x46, 0x46] ++ t).take 32).take 12) =
      ([0x52, 0x49, 0x46, 0x46] ++ t).take 12 := by
    rw [List.take_take]
    norm_num
  rw [detect_mime_type_by_content, htt, isPrefixOf_take32 _ _ (by decide),
    isPrefixOf_take32 _ _ (by decide), isPrefixOf_take32 _ _ (by decide),
    isPrefixOf_take32 _ _ (by decide), isPrefixOf_take32 _ _ (by decide)]
  simp at hw
  simp [List.isPrefixOf, hw]

theorem detect_bmp (bs : List Nat) (h : [0x42, 0x4d].isPrefixOf bs = true) :
    detect_mime_type_by_content bs = some "image/bmp" := by
  obtain ⟨t, rfl⟩ := List.isPrefixOf_iff_prefix.mp h
  rw [detect_mime_type_by_content, isPrefixOf_take32 _ _ (by decide),
    isPrefixOf_take32 _ _ (by decide), isPrefixOf_take32 _ _ (by decide),
    isPrefixOf_take32 _ _ (by decide), isPrefixOf_take32 _ _ (by decide),
    isPrefixOf_take32 _ _ (by decide)]
  simp [List.isPrefixOf]

theorem detect_icon (bs : List Nat) (h : [0x00, 0x00, 0x01, 0x00].isPrefixOf bs = true) :
    detect_mime_type_by_content bs = some "image/x-icon" := by
  obtain ⟨t, rfl⟩ := List.isPrefixOf_iff_prefix.mp h
  rw [detect_mime_type_by_content, isPrefixOf_take32 _ _ (by decide),
    isPrefixOf_take32 _ _ (by decide), isPrefixOf_take32 _ _ (by decide),
    isPrefixOf_take32 _ _ (by decide), isPrefixOf_take32 _ _ (by decide),
    isPrefixOf_take32 _ _ (by decide), isPrefixOf_take32 _ _ (by decide)]
  simp [List.isPrefixOf]

theorem detect_octet (bs : List Nat)
    (h1 : [0xff, 0xd8, 0xff].isPrefixOf bs = false)
    (h2 : [0x89, 0x50, 0x4e, 0x47, 0x0d, 0x0a, 0x1a, 0x0a].isPrefixOf bs = false)
    (h3 : [0x47, 0x49, 0x46, 0x38, 0x37, 0x61].isPrefixOf bs = false)
    (h4 : [0x47, 0x49, 0x46, 0x38, 0x39, 0x61].isPrefixOf bs = false)
    (h5 : ([0x52, 0x49, 0x46, 0x46].isPrefixOf bs && containsWEBP (bs.take 12)) = false)
    (h6 : [0x42, 0x4d].isPrefixOf bs = false)
    (h7 : [0x00, 0x00, 0x01, 0x00].isPrefixOf bs = false) :
    detect_mime_type_by_content bs = some "application/octet-stream" := by
  have htt : (bs.take 32).take 12 = bs.take 12 := by
    rw [List.take_take]
    norm_num
  rw [detect_mime_type_by_content, htt, isPrefixOf_take32 _ _ (by decide),
    isPrefixOf_take32 _ _ (by decide), isPrefixOf_take32 _ _ (by decide),
    isPrefixOf_take32 _ _ (by decide), isPrefixOf_take32 _ _ (by decide),
    isPrefixOf_take32 _ _ (by decide), isPrefixOf_take32 _ _ (by decide)]
  simp [h1, h2, h3, h4, h5, h6, h7]

/-! ### Concrete records used in test-vector claims -/

/-- The spec's similarity test vector `h0, h1, h2` as rows. -/
def simRec0 : Images_metadata := ⟨0, none, some "0000000000000000"⟩

def simRec1 : Images_metadata := ⟨1, none, some "0000000000000001"⟩

def simRec2 : Images_metadata := ⟨2, none, some "0000000000000003"⟩

/-- Rows with a missing (`NULL`) content fingerprint. -/
def noHash0 : Images_metadata := ⟨0, none, none⟩

def noHash1 : Images_metadata := ⟨1, none, none⟩

def aHash : String := String.mk (List.replicate 64 'a')

def bHash : String := String.mk (List.replicate 64 'b')

def dupA0 : Images_metadata := ⟨0, some aHash, none⟩

def dupA1 : Images_metadata := ⟨1, some aHash, none⟩

def dupB : Images_metadata := ⟨2, some bHash, none⟩

def dupA2 : Images_metadata := ⟨3, some aHash, none⟩

end ImageDB

/-- C1: the spec's similarity test vector claims character-level distances
`d(h0,h1)=1`, `d(h0,h2)=2`, `d(h1,h2)=1` for the all-zero hash and the
hashes ending in `1` resp. `3`.  Under the character-by-character
comparison the code performs, `h0` and `h2` differ in exactly one
position (the final character `0` vs `3`), so `d(h0,h2) = 1`, not `2`:
the claimed triple of distances is false. -/
theorem C1_hamming_test_vector_counterexample :
    ¬ (ImageDB.calculate_hamming_distance "0000000000000000" "0000000000000001" = (1 : Nat) ∧
       ImageDB.calculate_hamming_distance "0000000000000000" "0000000000000003" = (2 : Nat) ∧
       ImageDB.calculate_hamming_distance "0000000000000001" "0000000000000003" = (1 : Nat)) := by
  decide

/-- C1 (amended): on the perceptual fingerprints `h0 = "0" * 16`,
`h1 = "0" * 15 ++ "1"`, `h2 = "0" * 15 ++ "3"`, the character-level Hamming
comparator returns `d(h0,h1)=1`, `d(h0,h2)=1` and `d(h1,h2)=1`. -/
theorem C1_hamming_test_vector :
    ImageDB.calculate_hamming_distance "0000000000000000" "0000000000000001" = (1 : Nat) ∧
    ImageDB.calculate_hamming_distance "0000000000000000" "0000000000000003" = (1 : Nat) ∧
    ImageDB.calculate_hamming_distance "0000000000000001" "0000000000000003" = (1 : Nat) := by
  decide

/-- C6: whenever the two fingerprint strings have different lengths,
`calculate_hamming_distance` returns the infinite "incomparable" sentinel
(`float('inf')`, modelled as `⊤`) instead of raising. -/
theorem C6_length_mismatch_sentinel (a b : String) (h : a.length ≠ b.length) :
    ImageDB.calculate_hamming_distance a b = ⊤ := by
  simp [ImageDB.calculate_hamming_distance, h]

/-- C6 witness: `hammingDistance("0000", "00000")` is the incomparable
sentinel. -/
theorem C6_length_mismatch_sentinel_witness :
    ("0000" : String).length ≠ ("00000" : String).length ∧
    ImageDB.calculate_hamming_distance "0000" "00000" = ⊤ :=
  ⟨by decide, C6_length_mismatch_sentinel "0000" "00000" (by decide)⟩

/-- C7: for equal-length fingerprints the Hamming comparator is symmetric,
zero on identical strings, and bounded by the number of compared
character positions. -/
theorem C7_hamming_algebra (a b : String) (h : a.length = b.length) :
    ImageDB.calculate_hamming_distance a b = ImageDB.calculate_hamming_distance b a ∧
    ImageDB.calculate_hamming_distance a a = 0 ∧
    ImageDB.calculate_hamming_distance a b ≤ (a.length : WithTop Nat) := by
  refine ⟨?_, ?_, ?_⟩
  · simp [ImageDB.calculate_hamming_distance, h, ImageDB.hammingCount_comm a.data b.data]
  · simp [ImageDB.calculate_hamming_distance, ImageDB.hammingCount_self]
  · have hb := ImageDB.hammingCount_le_length a.data b.data
    rw [ImageDB.calculate_hamming_distance, if_neg (by simp [h])]
    exact_mod_cast hb

/-- C7 witness at the concrete pair `("00ff", "0f0f")`. -/
theorem C7_hamming_algebra_witness :
    ("00ff" : String).length = ("0f0f" : String).length ∧
    (ImageDB.calculate_hamming_distance "00ff" "0f0f" =
        ImageDB.calculate_hamming_distance "0f0f" "00ff" ∧
     ImageDB.calculate_hamming_distance "00ff" "00ff" = 0 ∧
     ImageDB.calculate_hamming_distance "00ff" "0f0f" ≤ (("00ff" : String).length : WithTop Nat)) :=
  ⟨by decide, C7_hamming_algebra "00ff" "0f0f" (by decide)⟩

/-- C2: the claim that an `ok=false` result never carries a fingerprint is
false.  When the content-hash pass succeeds but the perceptual-hash pass
fails (reachable, e.g., with a `BytesIO` input whose stream the first
pass consumed), `calculate_image_hashes` returns `success: False`
together with the computed 64-hex content digest — a partial
fingerprint. -/
theorem C2_partial_fingerprint_counterexample :
    (ImageDB.calculate_image_hashes ⟨fun _ => String.mk (List.replicate 64 'd')⟩
        ⟨some (List.replicate 4096 (255, 255, 255)), none⟩).success = false ∧
    (ImageDB.calculate_image_hashes ⟨fun _ => String.mk (List.replicate 64 'd')⟩
        ⟨some (List.replicate 4096 (255, 255, 255)), none⟩).image_hash ≠ none :=
  ⟨rfl, fun h => Option.noConfusion h⟩

/-- C2 (amended): `calculate_image_hashes` reports `success = false`
exactly when either sub-computation fails, and passes both
sub-computation results through unchanged — so a fingerprint computed by
the surviving sub-computation is returned even alongside `ok=false`
(partial fingerprints are not suppressed). -/
theorem C2_combined_entry_point (env : ImageDB.HashEnv) (inp : ImageDB.ImageInput) :
    ((ImageDB.calculate_image_hashes env inp).success = false ↔
      ImageDB.calculate_image_hash env inp = none ∨
        ImageDB.calculate_image_perceptual_hash inp = none) ∧
    (ImageDB.calculate_image_hashes env inp).image_hash =
      ImageDB.calculate_image_hash env inp ∧
    (ImageDB.calculate_image_hashes env inp).perceptual_hash =
      ImageDB.calculate_image_perceptual_hash inp := by
  obtain ⟨g1, g2⟩ := inp
  cases g1 <;> cases g2 <;>
    simp [ImageDB.calculate_image_hashes, ImageDB.calculate_image_hash,
      ImageDB.calculate_image_perceptual_hash]

/-- C8: on any 64-entry canonical grayscale grid, the perceptual hash the
code computes (binary string of strict-greater-than-mean bits in scan
order, `int(_, 2)`, `016x` format) equals the spec's description: mean
threshold, bits packed most-significant-bit first with weight
`2 ^ (63 - i)`, formatted as 16 zero-padded lowercase hex characters. -/
theorem C8_perceptual_hash_pipeline (inp : ImageDB.ImageInput) (pixels : List Nat)
    (hg : inp.gridGray8 = some pixels) (hlen : pixels.length = 64) :
    ImageDB.calculate_image_perceptual_hash inp =
      some (ImageDB.specPerceptualHash pixels) := by
  rw [ImageDB.calculate_image_perceptual_hash, hg, Option.map_some',
    ImageDB.perceptualHashCore_eq_spec pixels hlen]

/-- C8 witness: the grid with one bright pixel followed by 63 black
pixels hashes to the spec-side value (which evaluates to
`"8000000000000000"`: only the most significant bit is set). -/
theorem C8_perceptual_hash_pipeline_witness :
    (ImageDB.ImageInput.mk none (some (255 :: List.replicate 63 0))).gridGray8 =
        some (255 :: List.replicate 63 0) ∧
    (255 :: List.replicate 63 0 : List Nat).length = 64 ∧
    ImageDB.calculate_image_perceptual_hash ⟨none, some (255 :: List.replicate 63 0)⟩ =
      some (ImageDB.specPerceptualHash (255 :: List.replicate 63 0)) :=
  ⟨rfl, by decide,
    C8_perceptual_hash_pipeline ⟨none, some (255 :: List.replicate 63 0)⟩
      (255 :: List.replicate 63 0) rfl (by decide)⟩

/-- C10: every image whose canonical 8×8 grayscale grid is uniform (all
64 pixels equal, any shade) gets the perceptual hash
`"0000000000000000"`: no pixel is strictly greater than the mean. -/
theorem C10_uniform_grid (inp : ImageDB.ImageInput) (v : Nat)
    (hg : inp.gridGray8 = some (List.replicate 64 v)) :
    ImageDB.calculate_image_perceptual_hash inp = some "0000000000000000" := by
  rw [ImageDB.calculate_image_perceptual_hash, hg, Option.map_some',
    ImageDB.perceptualHashCore_replicate]

/-- C10 witness: the uniform grid of shade 200 hashes to all zeros. -/
theorem C10_uniform_grid_witness :
    (ImageDB.ImageInput.mk none (some (List.replicate 64 200))).gridGray8 =
        some (List.replicate 64 200) ∧
    ImageDB.calculate_image_perceptual_hash ⟨none, some (List.replicate 64 200)⟩ =
      some "0000000000000000" :=
  ⟨rfl, C10_uniform_grid ⟨none, some (List.replicate 64 200)⟩ 200 rfl⟩

/-- C3: the claim that records with missing fingerprints appear in no
returned group is false for `find_duplicate_images`, which performs no
missing-fingerprint check: two rows whose `image_hash` is `NULL` are
bucketed together under the `None` key and reported as a duplicate
group. -/
theorem C3_missing_fingerprint_counterexample :
    ImageDB.find_duplicate_images [ImageDB.noHash0, ImageDB.noHash1] =
      [⟨none, 2, [ImageDB.noHash0, ImageDB.noHash1]⟩] ∧
    ImageDB.noHash0.image_hash = none ∧ ImageDB.noHash1.image_hash = none := by
  refine ⟨by decide, rfl, rfl⟩

/-- C3 (amended): `find_similar_images` does exclude records whose
perceptual fingerprint is falsy (`None`/empty) — every record in any
returned group passes the truthiness check — but `find_duplicate_images`
performs no such exclusion: it buckets records by the exact stored
`image_hash` value, missing values included, so every member of a
returned duplicate group merely shares the group's (possibly `None`)
key. -/
theorem C3_missing_fingerprint_handling :
    (∀ (metas : List ImageDB.Images_metadata) (threshold : Nat)
        (g : ImageDB.SimGroup) (m : ImageDB.Images_metadata),
      g ∈ ImageDB.find_similar_images metas threshold → m ∈ g.images →
        m.hasPerceptualHash = true) ∧
    (∀ (metas : List ImageDB.Images_metadata) (g : ImageDB.DupGroup)
        (m : ImageDB.Images_metadata),
      g ∈ ImageDB.find_duplicate_images metas → m ∈ g.images →
        m.image_hash = g.image_hash) := by
  constructor
  · exact ImageDB.find_similar_members_truthy
  · intro metas g m hg hm
    have hchar := ImageDB.mem_find_duplicate metas g hg
    rw [hchar.1] at hm
    exact of_decide_eq_true (List.mem_filter.mp hm).2

/-- C3 witness: both halves applied to concrete inputs — a member of a
similarity group returned on the spec's test vector is truthy, and a
member of the duplicate group of the `NULL`-key counterexample carries
the group's key. -/
theorem C3_missing_fingerprint_handling_witness :
    ((⟨2, 3, [ImageDB.simRec0, ImageDB.simRec1, ImageDB.simRec2]⟩ : ImageDB.SimGroup) ∈
        ImageDB.find_similar_images [ImageDB.simRec0, ImageDB.simRec1, ImageDB.simRec2] 2 ∧
      ImageDB.simRec1 ∈
        (⟨2, 3, [ImageDB.simRec0, ImageDB.simRec1, ImageDB.simRec2]⟩ : ImageDB.SimGroup).images ∧
      ImageDB.simRec1.hasPerceptualHash = true) ∧
    ((⟨none, 2, [ImageDB.noHash0, ImageDB.noHash1]⟩ : ImageDB.DupGroup) ∈
        ImageDB.find_duplicate_images [ImageDB.noHash0, ImageDB.noHash1] ∧
      ImageDB.noHash0 ∈
        (⟨none, 2, [ImageDB.noHash0, ImageDB.noHash1]⟩ : ImageDB.DupGroup).images ∧
      ImageDB.noHash0.image_hash =
        (⟨none, 2, [ImageDB.noHash0, ImageDB.noHash1]⟩ : ImageDB.DupGroup).image_hash) :=
  ⟨⟨by decide, by decide,
      C3_missing_fingerprint_handling.1 [ImageDB.simRec0, ImageDB.simRec1, ImageDB.simRec2] 2
        ⟨2, 3, [ImageDB.simRec0, ImageDB.simRec1, ImageDB.simRec2]⟩ ImageDB.simRec1
        (by decide) (by decide)⟩,
    ⟨by decide, by decide,
      C3_missing_fingerprint_handling.2 [ImageDB.noHash0, ImageDB.noHash1]
        ⟨none, 2, [ImageDB.noHash0, ImageDB.noHash1]⟩ ImageDB.noHash0
        (by decide) (by decide)⟩⟩

/-- C4: on records that all carry (truthy) perceptual fingerprints,
`find_similar_images` equals the spec-side anchor scan
(`specSimilarGroups`): anchors in input order, each anchor collecting
exactly the later records within the threshold, a group emitted — anchor
first, members in input order — iff someone joined, no visited marking.
On the spec's test vector `h0, h1, h2` with threshold 2, records `h1`
and `h2` join anchor `h0`'s group and `h1` still anchors its own
overlapping group. -/
theorem C4_similarity_anchor_scan :
    (∀ (metas : List ImageDB.Images_metadata) (threshold : Nat),
      (∀ m ∈ metas, m.hasPerceptualHash = true) →
      ImageDB.find_similar_images metas threshold =
        ImageDB.specSimilarGroups metas threshold) ∧
    ImageDB.find_similar_images [ImageDB.simRec0, ImageDB.simRec1, ImageDB.simRec2] 2 =
      [⟨2, 3, [ImageDB.simRec0, ImageDB.simRec1, ImageDB.simRec2]⟩,
       ⟨2, 2, [ImageDB.simRec1, ImageDB.simRec2]⟩] :=
  ⟨ImageDB.find_similar_eq_spec, by decide⟩

/-- C4 witness: the anchor-scan equivalence applied to the concrete
test-vector records, whose fingerprints are all truthy. -/
theorem C4_similarity_anchor_scan_witness :
    (∀ m ∈ [ImageDB.simRec0, ImageDB.simRec1, ImageDB.simRec2],
      m.hasPerceptualHash = true) ∧
    ImageDB.find_similar_images [ImageDB.simRec0, ImageDB.simRec1, ImageDB.simRec2] 2 =
      ImageDB.specSimilarGroups [ImageDB.simRec0, ImageDB.simRec1, ImageDB.simRec2] 2 :=
  ⟨by decide,
    C4_similarity_anchor_scan.1 [ImageDB.simRec0, ImageDB.simRec1, ImageDB.simRec2] 2
      (by decide)⟩

/-- C5: `find_duplicate_images` buckets records by exact fingerprint
equality: every returned group consists of exactly the input records
bearing the group's fingerprint, in input order, with `count` the group
size and no singleton reported; group fingerprints are pairwise distinct
(one group per fingerprint); every fingerprint shared by at least two
records yields a group; and on three records with hash `"a"*64` plus
one with `"b"*64` exactly one group, of size 3, is returned. -/
theorem C5_duplicate_grouping :
    (∀ (metas : List ImageDB.Images_metadata) (g : ImageDB.DupGroup),
      g ∈ ImageDB.find_duplicate_images metas →
        g.images = metas.filter (fun m => decide (m.image_hash = g.image_hash)) ∧
        g.count = g.images.length ∧ 2 ≤ g.images.length) ∧
    (∀ metas : List ImageDB.Images_metadata,
      ((ImageDB.find_duplicate_images metas).map ImageDB.DupGroup.image_hash).Nodup) ∧
    (∀ (metas : List ImageDB.Images_metadata) (h : Option String),
      2 ≤ (metas.filter fun m => decide (m.image_hash = h)).length →
        ∃ g ∈ ImageDB.find_duplicate_images metas, g.image_hash = h) ∧
    ImageDB.find_duplicate_images [ImageDB.dupA0, ImageDB.dupA1, ImageDB.dupB, ImageDB.dupA2] =
      [⟨some ImageDB.aHash, 3, [ImageDB.dupA0, ImageDB.dupA1, ImageDB.dupA2]⟩] :=
  ⟨ImageDB.mem_find_duplicate, ImageDB.find_duplicate_keys_nodup,
    ImageDB.find_duplicate_complete, by decide⟩

/-- C5 witness: the characterization applied to the concrete
three-`"a"`-one-`"b"` catalog and its returned group. -/
theorem C5_duplicate_grouping_witness :
    ((⟨some ImageDB.aHash, 3, [ImageDB.dupA0, ImageDB.dupA1, ImageDB.dupA2]⟩ : ImageDB.DupGroup) ∈
        ImageDB.find_duplicate_images
          [ImageDB.dupA0, ImageDB.dupA1, ImageDB.dupB, ImageDB.dupA2] ∧
      (⟨some ImageDB.aHash, 3, [ImageDB.dupA0, ImageDB.dupA1, ImageDB.dupA2]⟩ :
          ImageDB.DupGroup).images =
        [ImageDB.dupA0, ImageDB.dupA1, ImageDB.dupB, ImageDB.dupA2].filter
          (fun m => decide (m.image_hash =
            (⟨some ImageDB.aHash, 3, [ImageDB.dupA0, ImageDB.dupA1, ImageDB.dupA2]⟩ :
              ImageDB.DupGroup).image_hash)) ∧
      (⟨some ImageDB.aHash, 3, [ImageDB.dupA0, ImageDB.dupA1, ImageDB.dupA2]⟩ :
          ImageDB.DupGroup).count =
        (⟨some ImageDB.aHash, 3, [ImageDB.dupA0, ImageDB.dupA1, ImageDB.dupA2]⟩ :
          ImageDB.DupGroup).images.length ∧
      2 ≤ (⟨some ImageDB.aHash, 3, [ImageDB.dupA0, ImageDB.dupA1, ImageDB.dupA2]⟩ :
          ImageDB.DupGroup).images.length) ∧
    (2 ≤ ([ImageDB.dupA0, ImageDB.dupA1, ImageDB.dupB, ImageDB.dupA2].filter
        (fun m => decide (m.image_hash = some ImageDB.aHash))).length ∧
      ∃ g ∈ ImageDB.find_duplicate_images
          [ImageDB.dupA0, ImageDB.dupA1, ImageDB.dupB, ImageDB.dupA2],
        g.image_hash = some ImageDB.aHash) :=
  ⟨⟨by decide,
      C5_duplicate_grouping.1 [ImageDB.dupA0, ImageDB.dupA1, ImageDB.dupB, ImageDB.dupA2]
        ⟨some ImageDB.aHash, 3, [ImageDB.dupA0, ImageDB.dupA1, ImageDB.dupA2]⟩ (by decide)⟩,
    ⟨by decide,
      C5_duplicate_grouping.2.2.1 [ImageDB.dupA0, ImageDB.dupA1, ImageDB.dupB, ImageDB.dupA2]
        (some ImageDB.aHash) (by decide)⟩⟩

/-- C9: `get_file_info` resolves the mime type by file extension first
and falls back to magic-byte sniffing only when the extension lookup
yields nothing; the sniffer implements exactly the fixed table
(JPEG, PNG, GIF87a/GIF89a, RIFF…WEBP, BM, 00 00 01 00, else
`application/octet-stream`); in particular a file with no recognized
extension whose bytes begin `FF D8 FF` resolves to `image/jpeg`. -/
theorem C9_mime_resolution :
    (∀ (f : ImageDB.FileData) (m : String), f.statOk = true → f.extMime = some m →
      (ImageDB.get_file_info f).mime_type = some m) ∧
    (∀ f : ImageDB.FileData, f.statOk = true → f.extMime = none →
      (ImageDB.get_file_info f).mime_type =
        ImageDB.detect_mime_type_by_content f.content) ∧
    (∀ bs : List Nat, [0xff, 0xd8, 0xff].isPrefixOf bs = true →
      ImageDB.detect_mime_type_by_content bs = some "image/jpeg") ∧
    (∀ bs : List Nat,
      [0x89, 0x50, 0x4e, 0x47, 0x0d, 0x0a, 0x1a, 0x0a].isPrefixOf bs = true →
      ImageDB.detect_mime_type_by_content bs = some "image/png") ∧
    (∀ bs : List Nat, ([0x47, 0x49, 0x46, 0x38, 0x37, 0x61].isPrefixOf bs ||
        [0x47, 0x49, 0x46, 0x38, 0x39, 0x61].isPrefixOf bs) = true →
      ImageDB.detect_mime_type_by_content bs = some "image/gif") ∧
    (∀ bs : List Nat, [0x52, 0x49, 0x46, 0x46].isPrefixOf bs = true →
      ImageDB.containsWEBP (bs.take 12) = true →
      ImageDB.detect_mime_type_by_content bs = some "image/webp") ∧
    (∀ bs : List Nat, [0x42, 0x4d].isPrefixOf bs = true →
      ImageDB.detect_mime_type_by_content bs = some "image/bmp") ∧
    (∀ bs : List Nat, [0x00, 0x00, 0x01, 0x00].isPrefixOf bs = true →
      ImageDB.detect_mime_type_by_content bs = some "image/x-icon") ∧
    (∀ bs : List Nat, [0xff, 0xd8, 0xff].isPrefixOf bs = false →
      [0x89, 0x50, 0x4e, 0x47, 0x0d, 0x0a, 0x1a, 0x0a].isPrefixOf bs = false →
      [0x47, 0x49, 0x46, 0x38, 0x37, 0x61].isPrefixOf bs = false →
      [0x47, 0x49, 0x46, 0x38, 0x39, 0x61].isPrefixOf bs = false →
      ([0x52, 0x49, 0x46, 0x46].isPrefixOf bs &&
        ImageDB.containsWEBP (bs.take 12)) = false →
      [0x42, 0x4d].isPrefixOf bs = false →
      [0x00, 0x00, 0x01, 0x00].isPrefixOf bs = false →
      ImageDB.detect_mime_type_by_content bs = some "application/octet-stream") ∧
    (∀ f : ImageDB.FileData, f.statOk = true → f.extMime = none →
      [0xff, 0xd8, 0xff].isPrefixOf f.content = true →
      (ImageDB.get_file_info f).mime_type = some "image/jpeg") := by
  refine ⟨ImageDB.get_file_info_ext, ImageDB.get_file_info_fallback,
    ImageDB.detect_jpeg, ImageDB.detect_png, ImageDB.detect_gif,
    ImageDB.detect_webp, ImageDB.detect_bmp, ImageDB.detect_icon,
    ImageDB.detect_octet, ?_⟩
  intro f hs he hj
  rw [ImageDB.get_file_info_fallback f hs he, ImageDB.detect_jpeg f.content hj]

/-- C9 witness: concrete files — an extension hit wins over the bytes,
and an extensionless JPEG buffer is sniffed to `image/jpeg`. -/
theorem C9_mime_resolution_witness :
    ((⟨true, 7, some "image/png", [0xff, 0xd8, 0xff]⟩ : ImageDB.FileData).statOk = true ∧
      (⟨true, 7, some "image/png", [0xff, 0xd8, 0xff]⟩ : ImageDB.FileData).extMime =
        some "image/png" ∧
      (ImageDB.get_file_info ⟨true, 7, some "image/png", [0xff, 0xd8, 0xff]⟩).mime_type =
        some "image/png") ∧
    ((⟨true, 3, none, [0xff, 0xd8, 0xff]⟩ : ImageDB.FileData).statOk = true ∧
      (⟨true, 3, none, [0xff, 0xd8, 0xff]⟩ : ImageDB.FileData).extMime = none ∧
      [0xff, 0xd8, 0xff].isPrefixOf
        (⟨true, 3, none, [0xff, 0xd8, 0xff]⟩ : ImageDB.FileData).content = true ∧
      (ImageDB.get_file_info ⟨true, 3, none, [0xff, 0xd8, 0xff]⟩).mime_type =
        some "image/jpeg") ∧
    ImageDB.detect_mime_type_by_content
        [0x52, 0x49, 0x46, 0x46, 1, 2, 3, 4, 0x57, 0x45, 0x42, 0x50] = some "image/webp" :=
  ⟨⟨rfl, rfl,
      C9_mime_resolution.1 ⟨true, 7, some "image/png", [0xff, 0xd8, 0xff]⟩
        "image/png" rfl rfl⟩,
    ⟨rfl, rfl, by decide,
      (C9_mime_resolution.2.2.2.2.2.2.2.2.2) ⟨true, 3, none, [0xff, 0xd8, 0xff]⟩
        rfl rfl (by decide)⟩,
    C9_mime_resolution.2.2.2.2.2.1
      [0x52, 0x49, 0x46, 0x46, 1, 2, 3, 4, 0x57, 0x45, 0x42, 0x50]
      (by decide) (by decide)⟩
